import Mathlib

/-!
# Shallow embedding of `fastbloom-rs/src/vec.rs`

The source file provides two containers on a 64-bit platform:

* `BloomBitVec` — a dense bit vector over a `Vec<usize>` of words, with
  per-bit `set`/`get` and word-wise boolean algebra (`or`, `xor`, `nor`,
  `xnor`, `and`, `nand`, `difference`), plus `clear` and `is_empty`;
* `CountingVec` — a vector of 4-bit saturating counters packed 16 per
  64-bit word, over a generic `Storage`; the only storage instance in the
  source is `Vec<usize>`, embedded here as `List Nat` with each word
  carrying the machine-integer invariant `< 2 ^ 64`.

Rust `usize` values are embedded as `Nat`; the bitwise complement `!x`
of a `usize` is `(2 ^ 64 - 1) ^^^ x`. Indexing a `Vec` out of bounds
panics in Rust; panicking operations are embedded as `Option`-valued
functions returning `none` on the panicking path.
-/

/-- Source constant `USIZE_LEN: usize = 64`. -/
def USIZE_LEN : Nat := 64

/-- Source constant `COUNTER_PER_SLOT: usize = USIZE_LEN >> 2`. -/
def COUNTER_PER_SLOT : Nat := USIZE_LEN >>> 2

/-- Modelled from the spec: the constant `SUFFIX` is imported from
`crate::builder`, whose source is not under `src/`.  The spec addresses
bits via `bit_in_word = index mod bits_per_word` with 64-bit words, so
`SUFFIX` is the low-six-bit mask `63`. -/
def SUFFIX : Nat := 63

/-- Bitwise complement of a 64-bit word (`!x` on `usize`). -/
def not64 (x : Nat) : Nat := (2 ^ 64 - 1) ^^^ x

/-- Source struct `BloomBitVec` with fields `storage: Vec<usize>` and `nbits: u64`. -/
structure BloomBitVec where
  storage : List Nat
  nbits : Nat
deriving Repr, DecidableEq

/-- Constructor `BloomBitVec::new(slots)`. -/
def BloomBitVec.new (slots : Nat) : BloomBitVec :=
  { storage := List.replicate slots 0,
    nbits := slots * COUNTER_PER_SLOT }

/-- Constructor `BloomBitVec::from_elem(slots, bit)`. -/
def BloomBitVec.from_elem (slots : Nat) (bit : Bool) : BloomBitVec :=
  { storage := List.replicate slots (if bit then not64 0 else 0),
    nbits := slots * COUNTER_PER_SLOT }

/-- Method `BloomBitVec::set(index)`: `w = index >> 6`, `b = index & SUFFIX`,
`storage[w] |= 1 << b`.  The indexing `self.storage[w]` panics when
`w` is out of bounds, embedded as `none`. -/
def BloomBitVec.set (v : BloomBitVec) (index : Nat) : Option BloomBitVec :=
  let w := index >>> 6
  let b := index &&& SUFFIX
  let flag := 1 <<< b
  (v.storage[w]?).map fun s =>
    { v with storage := v.storage.set w (s ||| flag) }

/-- Method `BloomBitVec::get(index)`: `(storage[w] & (1 << b)) != 0`, panicking
(`none`) when `w` is out of bounds. -/
def BloomBitVec.get (v : BloomBitVec) (index : Nat) : Option Bool :=
  let w := index >>> 6
  let b := index &&& SUFFIX
  let flag := 1 <<< b
  (v.storage[w]?).map fun s => decide ((s &&& flag) ≠ 0)

/-- The Rust boolean-algebra operations iterate with
`self.storage.iter_mut().zip(&other.storage)`: each position up to the
shorter length is combined, and any remaining words of `self` are left
unchanged. -/
def zipWithKeep (f : Nat → Nat → Nat) : List Nat → List Nat → List Nat
  | [], _ => []
  | xs, [] => xs
  | x :: xs, y :: ys => f x y :: zipWithKeep f xs ys

/-- Method `BloomBitVec::or`: `*m |= *o` over the zipped words. -/
def BloomBitVec.or (v other : BloomBitVec) : BloomBitVec :=
  { v with storage := zipWithKeep (fun m o => m ||| o) v.storage other.storage }

/-- Method `BloomBitVec::xor`: `*m ^= *o`. -/
def BloomBitVec.xor (v other : BloomBitVec) : BloomBitVec :=
  { v with storage := zipWithKeep (fun m o => m ^^^ o) v.storage other.storage }

/-- Method `BloomBitVec::nor`: `*m = !(*m | *o)`. -/
def BloomBitVec.nor (v other : BloomBitVec) : BloomBitVec :=
  { v with storage := zipWithKeep (fun m o => not64 (m ||| o)) v.storage other.storage }

/-- Method `BloomBitVec::xnor`: `*m = !(*m ^ *o)`. -/
def BloomBitVec.xnor (v other : BloomBitVec) : BloomBitVec :=
  { v with storage := zipWithKeep (fun m o => not64 (m ^^^ o)) v.storage other.storage }

/-- Method `BloomBitVec::and`: `*m &= *o`. -/
def BloomBitVec.and (v other : BloomBitVec) : BloomBitVec :=
  { v with storage := zipWithKeep (fun m o => m &&& o) v.storage other.storage }

/-- Method `BloomBitVec::nand`: `*m = !(*m & *o)`. -/
def BloomBitVec.nand (v other : BloomBitVec) : BloomBitVec :=
  { v with storage := zipWithKeep (fun m o => not64 (m &&& o)) v.storage other.storage }

/-- Method `BloomBitVec::difference`: `*m &= !*o`. -/
def BloomBitVec.difference (v other : BloomBitVec) : BloomBitVec :=
  { v with storage := zipWithKeep (fun m o => m &&& not64 o) v.storage other.storage }

/-- Method `BloomBitVec::clear`: `self.storage.fill(0)`. -/
def BloomBitVec.clear (v : BloomBitVec) : BloomBitVec :=
  { v with storage := List.replicate v.storage.length 0 }

/-- Method `BloomBitVec::is_empty`: `self.storage.is_empty()`. -/
def BloomBitVec.is_empty (v : BloomBitVec) : Bool :=
  v.storage.isEmpty

/-- Definition following the spec's words only: the bitwise complement of
a bit vector, complementing every word.  The source has no such method;
§8 of the spec uses it to relate `xnor`/`nand`/`nor`/`difference` to
`xor`/`and`/`or`. -/
def specComplement (v : BloomBitVec) : BloomBitVec :=
  { v with storage := v.storage.map not64 }

/-- Trait method `Storage::get` of `impl Storage for Vec<usize>`: returns
`self[slot]`, panicking (`none`) out of bounds. -/
def Storage.get (s : List Nat) (slot : Nat) : Option Nat :=
  s[slot]?

/-- Trait method `Storage::slots` of `impl Storage for Vec<usize>`: the length. -/
def Storage.slots (s : List Nat) : Nat :=
  s.length

/-- Trait method `StorageMut::update` of `impl StorageMut for Vec<usize>`:
read `self[slot]` (panic out of bounds), apply `op`, and write back only
when `op` returns `Some`. -/
def StorageMut.update (s : List Nat) (slot : Nat) (op : Nat → Option Nat) :
    Option (List Nat) :=
  (s[slot]?).map fun v =>
    match op v with
    | some v2 => s.set slot v2
    | none => s

/-- Trait method `StorageMut::clear` of `impl StorageMut for Vec<usize>`:
zero-fills every slot. -/
def StorageMut.clear (s : List Nat) : List Nat :=
  List.replicate s.length 0

/-- Source struct `CountingVec<S>` with field `storage: S`, at the source's
only storage instance `S = Vec<usize>`. -/
structure CountingVec where
  storage : List Nat
deriving Repr, DecidableEq

/-- Constructor `CountingVec::new(storage)`. -/
def CountingVec.new (storage : List Nat) : CountingVec :=
  { storage := storage }

/-- Method `CountingVec::get(index)`: `w = index >> 4`, `b = index & 0b1111`,
`(storage.get(w) >> ((15 - b) * 4)) & 0b1111`. -/
def CountingVec.get (v : CountingVec) (index : Nat) : Option Nat :=
  let w := index >>> 4
  let b := index &&& 0b1111
  (Storage.get v.storage w).map fun slot =>
    (slot >>> ((15 - b) * 4)) &&& 0b1111

/-- Method `CountingVec::counters()`: `storage.slots() * COUNTER_PER_SLOT`. -/
def CountingVec.counters (v : CountingVec) : Nat :=
  Storage.slots v.storage * COUNTER_PER_SLOT

/-- Method `CountingVec::increment(index)`: update the slot, replacing the nibble
by `current + 1` unless `current == 0b1111`, in which case the closure
returns `None` and the word is left unchanged. -/
def CountingVec.increment (v : CountingVec) (index : Nat) : Option CountingVec :=
  let w := index >>> 4
  let b := index &&& 0b1111
  (StorageMut.update v.storage w fun slot =>
    let current := (slot >>> ((15 - b) * 4)) &&& 0b1111
    if current ≠ 0b1111 then
      let current := current + 1
      let move_bits := (15 - b) * 4
      some ((slot &&& not64 (0b1111 <<< move_bits)) ||| (current <<< move_bits))
    else
      none).map CountingVec.mk

/-- Method `CountingVec::decrement(index)`: update the slot, replacing the nibble
by `current - 1` unless `current == 0`, in which case the closure returns
`None` and the word is left unchanged. -/
def CountingVec.decrement (v : CountingVec) (index : Nat) : Option CountingVec :=
  let w := index >>> 4
  let b := index &&& 0b1111
  (StorageMut.update v.storage w fun slot =>
    let current := (slot >>> ((15 - b) * 4)) &&& 0b1111
    if current > 0 then
      let current := current - 1
      let move_bits := (15 - b) * 4
      some ((slot &&& not64 (0b1111 <<< move_bits)) ||| (current <<< move_bits))
    else
      none).map CountingVec.mk

/-- Method `CountingVec::clear()`: delegates to the storage's clear. -/
def CountingVec.clear (v : CountingVec) : CountingVec :=
  { storage := StorageMut.clear v.storage }

/-- Iterated `increment` at a fixed index, threading the `Option`. -/
def incIter : Nat → CountingVec → Nat → Option CountingVec
  | 0, v, _ => some v
  | k + 1, v, i => (incIter k v i).bind fun t => t.increment i

/-! ## List-level helper lemmas -/

theorem set_getElem_eq_self :
    ∀ (l : List Nat) (n x : Nat), l[n]? = some x → l.set n x = l
  | [], n, x, h => by simp at h
  | a :: l, 0, x, h => by
    simp at h
    simp [List.set, h]
  | a :: l, n + 1, x, h => by
    simp at h
    simp [List.set, set_getElem_eq_self l n x h]

theorem getElem_some_of_lt {l : List Nat} {n : Nat} (h : n < l.length) :
    l[n]? = some l[n] :=
  List.getElem?_eq_getElem h

/-! ## Bit-index decomposition -/

theorem shiftRight_six (i : Nat) : i >>> 6 = i / 64 := by
  rw [Nat.shiftRight_eq_div_pow]

theorem and_suffix (i : Nat) : i &&& SUFFIX = i % 64 := by
  have h : SUFFIX = 2 ^ 6 - 1 := rfl
  rw [h, Nat.and_pow_two_sub_one_eq_mod]

theorem shiftRight_four (i : Nat) : i >>> 4 = i / 16 := by
  rw [Nat.shiftRight_eq_div_pow]

theorem and15 (x : Nat) : x &&& 15 = x % 16 := by
  have h : (15 : Nat) = 2 ^ 4 - 1 := rfl
  rw [h, Nat.and_pow_two_sub_one_eq_mod]

/-! ## Single-bit flag lemmas -/

theorem one_shiftLeft_eq (b : Nat) : 1 <<< b = 2 ^ b := by
  rw [Nat.shiftLeft_eq, one_mul]

theorem and_flag_ne_zero (s b : Nat) : (s &&& (1 <<< b) ≠ 0) ↔ s.testBit b = true := by
  rw [one_shiftLeft_eq, Nat.and_two_pow]
  cases h : s.testBit b <;> simp [h]

theorem testBit_or_flag_self (s b : Nat) : (s ||| (1 <<< b)).testBit b = true := by
  rw [one_shiftLeft_eq, Nat.testBit_lor, Nat.testBit_two_pow_self, Bool.or_true]

theorem testBit_or_flag_other (s b b2 : Nat) (h : b ≠ b2) :
    (s ||| (1 <<< b)).testBit b2 = s.testBit b2 := by
  rw [one_shiftLeft_eq, Nat.testBit_lor, Nat.testBit_two_pow_of_ne h, Bool.or_false]

/-! ## Nibble-level lemmas for the counting vector -/

theorem testBit_not64 (m i : Nat) :
    (not64 m).testBit i = ((decide (i < 64)).xor (m.testBit i)) := by
  rw [not64, Nat.testBit_xor, Nat.testBit_two_pow_sub_one]

theorem testBit_15 (i : Nat) : Nat.testBit 15 i = decide (i < 4) := by
  have h : (15 : Nat) = 2 ^ 4 - 1 := rfl
  rw [h, Nat.testBit_two_pow_sub_one]

theorem testBit_and15 (x i : Nat) :
    (x &&& 15).testBit i = (decide (i < 4) && x.testBit i) := by
  rw [Nat.testBit_land, testBit_15, Bool.and_comm]

theorem nibble_get_lt (slot m : Nat) : (slot >>> m) &&& 15 < 16 :=
  Nat.lt_succ_of_le Nat.and_le_right

theorem nibble_set_get_self (slot v b : Nat) (hb : b < 16) (hv : v < 16) :
    ((((slot &&& not64 (15 <<< ((15 - b) * 4))) ||| (v <<< ((15 - b) * 4)))
        >>> ((15 - b) * 4)) &&& 15) = v := by
  apply Nat.eq_of_testBit_eq
  intro i
  simp only [Nat.testBit_lor, Nat.testBit_land, testBit_not64, Nat.testBit_shiftLeft,
    Nat.testBit_shiftRight, testBit_15, testBit_and15]
  by_cases hi : i < 4
  · have h1 : (15 - b) * 4 + i ≥ (15 - b) * 4 := Nat.le_add_right _ _
    have h2 : (15 - b) * 4 + i - (15 - b) * 4 = i := by omega
    have h3 : (15 - b) * 4 + i < 64 := by omega
    simp [hi, h2, h3]
  · have h4 : v < 2 ^ i := by
      calc v < 16 := hv
      _ = 2 ^ 4 := rfl
      _ ≤ 2 ^ i := Nat.pow_le_pow_right (by omega) (by omega)
    simp [hi, Nat.testBit_lt_two_pow h4]

theorem nibble_set_get_other (slot v b b2 : Nat) (hb : b < 16) (hb2 : b2 < 16)
    (hne : b ≠ b2) (hv : v < 16) :
    ((((slot &&& not64 (15 <<< ((15 - b) * 4))) ||| (v <<< ((15 - b) * 4)))
        >>> ((15 - b2) * 4)) &&& 15) = (slot >>> ((15 - b2) * 4)) &&& 15 := by
  apply Nat.eq_of_testBit_eq
  intro i
  simp only [Nat.testBit_lor, Nat.testBit_land, testBit_not64, Nat.testBit_shiftLeft,
    Nat.testBit_shiftRight, testBit_15, testBit_and15]
  by_cases hi : i < 4
  · have h64 : (15 - b2) * 4 + i < 64 := by omega
    by_cases hge : (15 - b2) * 4 + i ≥ (15 - b) * 4
    · have hlt : ¬((15 - b2) * 4 + i - (15 - b) * 4 < 4) := by omega
      have hvbit : v.testBit ((15 - b2) * 4 + i - (15 - b) * 4) = false := by
        apply Nat.testBit_lt_two_pow
        calc v < 16 := hv
        _ = 2 ^ 4 := rfl
        _ ≤ 2 ^ ((15 - b2) * 4 + i - (15 - b) * 4) := Nat.pow_le_pow_right (by omega) (by omega)
      simp [hge, hlt, h64, hvbit]
    · simp [hge, h64]
  · simp [hi]

theorem nibble_set_revert (slot v b : Nat) (hslot : slot < 2 ^ 64) (hb : b < 16)
    (hv : v < 16) :
    ((((slot &&& not64 (15 <<< ((15 - b) * 4))) ||| (v <<< ((15 - b) * 4)))
        &&& not64 (15 <<< ((15 - b) * 4)))
      ||| (((slot >>> ((15 - b) * 4)) &&& 15) <<< ((15 - b) * 4))) = slot := by
  apply Nat.eq_of_testBit_eq
  intro i
  simp only [Nat.testBit_lor, Nat.testBit_land, testBit_not64, Nat.testBit_shiftLeft,
    Nat.testBit_shiftRight, testBit_15, testBit_and15]
  by_cases h64 : i < 64
  · by_cases hge : (15 - b) * 4 ≤ i
    · have he : (15 - b) * 4 + (i - (15 - b) * 4) = i := by omega
      by_cases hlt : i - (15 - b) * 4 < 4
      · simp [hge, hlt, h64, he]
      · have hvb : v.testBit (i - (15 - b) * 4) = false := by
          apply Nat.testBit_lt_two_pow
          calc v < 16 := hv
          _ = 2 ^ 4 := rfl
          _ ≤ 2 ^ (i - (15 - b) * 4) := Nat.pow_le_pow_right (by omega) (by omega)
        simp [hge, hlt, h64, hvb, he]
    · simp [hge, h64]
  · have hge : (15 - b) * 4 ≤ i := by omega
    have hlt : ¬(i - (15 - b) * 4 < 4) := by omega
    have hsbit : slot.testBit i = false := by
      apply Nat.testBit_lt_two_pow
      calc slot < 2 ^ 64 := hslot
      _ ≤ 2 ^ i := Nat.pow_le_pow_right (by omega) (by omega)
    have he : (15 - b) * 4 + (i - (15 - b) * 4) = i := by omega
    simp [hge, hlt, h64, hsbit, he]

/-! ## Counting-vector step lemmas -/

theorem counting_index_lt {i L : Nat} (h : i < 16 * L) : i >>> 4 < L := by
  rw [shiftRight_four]; omega

theorem counting_b_lt (i : Nat) : i &&& 15 < 16 := by
  rw [and15]; omega

theorem counting_decomp (i : Nat) : i = (i >>> 4) * 16 + (i &&& 15) := by
  rw [shiftRight_four, and15]; omega

theorem CountingVec.get_eq_nibble {v : CountingVec} {i slot : Nat}
    (hs : v.storage[i >>> 4]? = some slot) :
    v.get i = some ((slot >>> ((15 - (i &&& 15)) * 4)) &&& 15) := by
  simp [CountingVec.get, Storage.get, hs]

theorem CountingVec.increment_step {v : CountingVec} {i slot : Nat}
    (hs : v.storage[i >>> 4]? = some slot)
    (hne : (slot >>> ((15 - (i &&& 15)) * 4)) &&& 15 ≠ 15) :
    v.increment i = some ⟨v.storage.set (i >>> 4)
      ((slot &&& not64 (15 <<< ((15 - (i &&& 15)) * 4))) |||
        ((((slot >>> ((15 - (i &&& 15)) * 4)) &&& 15) + 1) <<< ((15 - (i &&& 15)) * 4)))⟩ := by
  simp [CountingVec.increment, StorageMut.update, hs, hne]

theorem CountingVec.increment_sat {v : CountingVec} {i slot : Nat}
    (hs : v.storage[i >>> 4]? = some slot)
    (heq : (slot >>> ((15 - (i &&& 15)) * 4)) &&& 15 = 15) :
    v.increment i = some v := by
  simp [CountingVec.increment, StorageMut.update, hs, heq]

theorem CountingVec.decrement_step {v : CountingVec} {i slot : Nat}
    (hs : v.storage[i >>> 4]? = some slot)
    (hpos : 0 < (slot >>> ((15 - (i &&& 15)) * 4)) &&& 15) :
    v.decrement i = some ⟨v.storage.set (i >>> 4)
      ((slot &&& not64 (15 <<< ((15 - (i &&& 15)) * 4))) |||
        ((((slot >>> ((15 - (i &&& 15)) * 4)) &&& 15) - 1) <<< ((15 - (i &&& 15)) * 4)))⟩ := by
  simp [CountingVec.decrement, StorageMut.update, hs, hpos]

theorem CountingVec.decrement_zero {v : CountingVec} {i slot : Nat}
    (hs : v.storage[i >>> 4]? = some slot)
    (h0 : (slot >>> ((15 - (i &&& 15)) * 4)) &&& 15 = 0) :
    v.decrement i = some v := by
  simp [CountingVec.decrement, StorageMut.update, hs, h0]

theorem incIter_chain (v : CountingVec) (i : Nat) (hi : i < 16 * v.storage.length)
    (h0 : v.get i = some 0) :
    ∀ k, k ≤ 15 → ∃ t : CountingVec, incIter k v i = some t ∧ t.get i = some k ∧
      t.storage.length = v.storage.length
  | 0, _ => ⟨v, rfl, h0, rfl⟩
  | k + 1, hk => by
    obtain ⟨t, hit, hgt, hlen⟩ := incIter_chain v i hi h0 k (by omega)
    have hw : i >>> 4 < t.storage.length := hlen ▸ counting_index_lt hi
    obtain ⟨slot, hs⟩ : ∃ slot, t.storage[i >>> 4]? = some slot :=
      ⟨t.storage[i >>> 4], List.getElem?_eq_getElem hw⟩
    have hnib : (slot >>> ((15 - (i &&& 15)) * 4)) &&& 15 = k := by
      have := CountingVec.get_eq_nibble hs
      rw [this] at hgt
      exact Option.some.inj hgt
    have hne : (slot >>> ((15 - (i &&& 15)) * 4)) &&& 15 ≠ 15 := by omega
    refine ⟨⟨t.storage.set (i >>> 4)
      ((slot &&& not64 (15 <<< ((15 - (i &&& 15)) * 4))) |||
        ((((slot >>> ((15 - (i &&& 15)) * 4)) &&& 15) + 1) <<< ((15 - (i &&& 15)) * 4)))⟩,
      ?_, ?_, ?_⟩
    · show (incIter k v i).bind _ = _
      rw [hit]
      simpa using CountingVec.increment_step hs hne
    · have hset : (t.storage.set (i >>> 4)
          ((slot &&& not64 (15 <<< ((15 - (i &&& 15)) * 4))) |||
            ((((slot >>> ((15 - (i &&& 15)) * 4)) &&& 15) + 1) <<< ((15 - (i &&& 15)) * 4))))[i >>> 4]?
          = some ((slot &&& not64 (15 <<< ((15 - (i &&& 15)) * 4))) |||
            ((((slot >>> ((15 - (i &&& 15)) * 4)) &&& 15) + 1) <<< ((15 - (i &&& 15)) * 4))) :=
        List.getElem?_set_eq_of_lt _ hw
      rw [CountingVec.get_eq_nibble hset, hnib,
        nibble_set_get_self slot (k + 1) (i &&& 15) (counting_b_lt i) (by omega)]
    · simp [hlen]

/-- Claim C4: saturating increment and decrement for the counting vector:
increment at 15 and decrement at 0 are no-ops that leave the storage
unchanged (and are not errors), and from a zero counter sixteen
increments drive the counter to 15 while a seventeenth leaves it at 15. -/
theorem counting_saturation (v : CountingVec) (i : Nat)
    (hi : i < 16 * v.storage.length) :
    (v.get i = some 15 → v.increment i = some v) ∧
    (v.get i = some 0 → v.decrement i = some v) ∧
    (v.get i = some 0 → ∃ t : CountingVec, incIter 16 v i = some t ∧
      t.get i = some 15 ∧ incIter 17 v i = some t) := by
  have hw : i >>> 4 < v.storage.length := counting_index_lt hi
  obtain ⟨slot, hs⟩ : ∃ slot, v.storage[i >>> 4]? = some slot :=
    ⟨v.storage[i >>> 4], List.getElem?_eq_getElem hw⟩
  refine ⟨?_, ?_, ?_⟩
  · intro h15
    have hnib : (slot >>> ((15 - (i &&& 15)) * 4)) &&& 15 = 15 := by
      have := CountingVec.get_eq_nibble hs
      rw [this] at h15
      exact Option.some.inj h15
    exact CountingVec.increment_sat hs hnib
  · intro h0
    have hnib : (slot >>> ((15 - (i &&& 15)) * 4)) &&& 15 = 0 := by
      have := CountingVec.get_eq_nibble hs
      rw [this] at h0
      exact Option.some.inj h0
    exact CountingVec.decrement_zero hs hnib
  · intro h0
    obtain ⟨t, hit, hgt, hlen⟩ := incIter_chain v i hi h0 15 le_rfl
    have hw2 : i >>> 4 < t.storage.length := hlen ▸ hw
    obtain ⟨slot2, hs2⟩ : ∃ slot2, t.storage[i >>> 4]? = some slot2 :=
      ⟨t.storage[i >>> 4], List.getElem?_eq_getElem hw2⟩
    have hnib2 : (slot2 >>> ((15 - (i &&& 15)) * 4)) &&& 15 = 15 := by
      have := CountingVec.get_eq_nibble hs2
      rw [this] at hgt
      exact Option.some.inj hgt
    have hsat : t.increment i = some t := CountingVec.increment_sat hs2 hnib2
    have h16 : incIter 16 v i = some t := by
      show (incIter 15 v i).bind _ = _
      rw [hit]
      simpa using hsat
    refine ⟨t, h16, hgt, ?_⟩
    show (incIter 16 v i).bind _ = _
    rw [h16]
    simpa using hsat

theorem counting_frame_core (v : CountingVec) (i j slot newslot : Nat)
    (hs : v.storage[i >>> 4]? = some slot)
    (hjw : j >>> 4 < v.storage.length)
    (hne : i ≠ j)
    (hnib : ∀ b2, b2 < 16 → b2 ≠ (i &&& 15) →
      ((newslot >>> ((15 - b2) * 4)) &&& 15) = ((slot >>> ((15 - b2) * 4)) &&& 15)) :
    CountingVec.get ⟨v.storage.set (i >>> 4) newslot⟩ j = v.get j := by
  by_cases hw : i >>> 4 = j >>> 4
  · have hiw : i >>> 4 < v.storage.length := by rw [hw]; exact hjw
    have hset : (v.storage.set (i >>> 4) newslot)[j >>> 4]? = some newslot := by
      rw [← hw]
      exact List.getElem?_set_eq_of_lt _ hiw
    have hsj : v.storage[j >>> 4]? = some slot := hw ▸ hs
    have hbne : (j &&& 15) ≠ (i &&& 15) := by
      intro hb
      apply hne
      have di := counting_decomp i
      have dj := counting_decomp j
      omega
    rw [show CountingVec.get ⟨v.storage.set (i >>> 4) newslot⟩ j =
        some ((newslot >>> ((15 - (j &&& 15)) * 4)) &&& 15) from
      CountingVec.get_eq_nibble hset]
    rw [CountingVec.get_eq_nibble hsj, hnib (j &&& 15) (counting_b_lt j) hbne]
  · have hset : (v.storage.set (i >>> 4) newslot)[j >>> 4]? = v.storage[j >>> 4]? :=
      List.getElem?_set_ne hw
    simp [CountingVec.get, Storage.get, hset]

/-- Claim C5: incrementing or decrementing an in-range counter index `i`
never changes the value read at any other in-range index `j`, whether or
not `j` lies in the same word as `i`. -/
theorem counting_increment_frame (v : CountingVec) (i j : Nat)
    (hi : i < 16 * v.storage.length) (hj : j < 16 * v.storage.length)
    (hne : i ≠ j) :
    ((v.increment i).bind fun t => t.get j) = v.get j ∧
    ((v.decrement i).bind fun t => t.get j) = v.get j := by
  have hw : i >>> 4 < v.storage.length := counting_index_lt hi
  have hjw : j >>> 4 < v.storage.length := counting_index_lt hj
  obtain ⟨slot, hs⟩ : ∃ slot, v.storage[i >>> 4]? = some slot :=
    ⟨v.storage[i >>> 4], List.getElem?_eq_getElem hw⟩
  have hblt : i &&& 15 < 16 := counting_b_lt i
  have hnlt : (slot >>> ((15 - (i &&& 15)) * 4)) &&& 15 < 16 := nibble_get_lt slot _
  constructor
  · by_cases hsat : (slot >>> ((15 - (i &&& 15)) * 4)) &&& 15 = 15
    · rw [CountingVec.increment_sat hs hsat, Option.some_bind]
    · rw [CountingVec.increment_step hs hsat, Option.some_bind]
      apply counting_frame_core v i j slot _ hs hjw hne
      intro b2 hb2 hb2ne
      exact nibble_set_get_other slot _ (i &&& 15) b2 hblt hb2
        (fun h => hb2ne h.symm) (by omega)
  · by_cases hzero : (slot >>> ((15 - (i &&& 15)) * 4)) &&& 15 = 0
    · rw [CountingVec.decrement_zero hs hzero, Option.some_bind]
    · rw [CountingVec.decrement_step hs (by omega), Option.some_bind]
      apply counting_frame_core v i j slot _ hs hjw hne
      intro b2 hb2 hb2ne
      exact nibble_set_get_other slot _ (i &&& 15) b2 hblt hb2
        (fun h => hb2ne h.symm) (by omega)

/-- Claim C10: while the counter at an in-range index is strictly below
saturation, increment followed by decrement restores exactly the original
storage state; while it is strictly above zero, decrement followed by
increment restores exactly the original storage state. -/
theorem counting_inc_dec_roundtrip (v : CountingVec) (i c : Nat)
    (hinv : ∀ x ∈ v.storage, x < 2 ^ 64)
    (hi : i < 16 * v.storage.length)
    (hc : v.get i = some c) :
    (c < 15 → ((v.increment i).bind fun t => t.decrement i) = some v) ∧
    (0 < c → ((v.decrement i).bind fun t => t.increment i) = some v) := by
  have hw : i >>> 4 < v.storage.length := counting_index_lt hi
  obtain ⟨slot, hs⟩ : ∃ slot, v.storage[i >>> 4]? = some slot :=
    ⟨v.storage[i >>> 4], List.getElem?_eq_getElem hw⟩
  have hslot64 : slot < 2 ^ 64 := hinv slot (List.getElem?_mem hs)
  have hblt : i &&& 15 < 16 := counting_b_lt i
  have hnib : (slot >>> ((15 - (i &&& 15)) * 4)) &&& 15 = c := by
    have := CountingVec.get_eq_nibble hs
    rw [this] at hc
    exact Option.some.inj hc
  have hclt : c < 16 := hnib ▸ nibble_get_lt slot _
  constructor
  · intro hlt
    rw [CountingVec.increment_step hs (by omega), Option.some_bind]
    have hs1 : (v.storage.set (i >>> 4)
        ((slot &&& not64 (15 <<< ((15 - (i &&& 15)) * 4))) |||
          ((((slot >>> ((15 - (i &&& 15)) * 4)) &&& 15) + 1) <<<
            ((15 - (i &&& 15)) * 4))))[i >>> 4]?
        = some ((slot &&& not64 (15 <<< ((15 - (i &&& 15)) * 4))) |||
          ((((slot >>> ((15 - (i &&& 15)) * 4)) &&& 15) + 1) <<<
            ((15 - (i &&& 15)) * 4))) :=
      List.getElem?_set_eq_of_lt _ hw
    have hnib1 := nibble_set_get_self slot
      (((slot >>> ((15 - (i &&& 15)) * 4)) &&& 15) + 1) (i &&& 15) hblt (by omega)
    rw [CountingVec.decrement_step hs1 (by rw [hnib1]; omega)]
    rw [hnib1, Nat.add_sub_cancel,
      nibble_set_revert slot (((slot >>> ((15 - (i &&& 15)) * 4)) &&& 15) + 1)
        (i &&& 15) hslot64 hblt (by omega),
      List.set_set, set_getElem_eq_self v.storage _ slot hs]
  · intro hpos
    rw [CountingVec.decrement_step hs (by omega), Option.some_bind]
    have hs1 : (v.storage.set (i >>> 4)
        ((slot &&& not64 (15 <<< ((15 - (i &&& 15)) * 4))) |||
          ((((slot >>> ((15 - (i &&& 15)) * 4)) &&& 15) - 1) <<<
            ((15 - (i &&& 15)) * 4))))[i >>> 4]?
        = some ((slot &&& not64 (15 <<< ((15 - (i &&& 15)) * 4))) |||
          ((((slot >>> ((15 - (i &&& 15)) * 4)) &&& 15) - 1) <<<
            ((15 - (i &&& 15)) * 4))) :=
      List.getElem?_set_eq_of_lt _ hw
    have hnib1 := nibble_set_get_self slot
      (((slot >>> ((15 - (i &&& 15)) * 4)) &&& 15) - 1) (i &&& 15) hblt (by omega)
    have hsub : (((slot >>> ((15 - (i &&& 15)) * 4)) &&& 15) - 1) + 1 =
        ((slot >>> ((15 - (i &&& 15)) * 4)) &&& 15) := by omega
    rw [CountingVec.increment_step hs1 (by rw [hnib1]; omega)]
    rw [hnib1, hsub,
      nibble_set_revert slot (((slot >>> ((15 - (i &&& 15)) * 4)) &&& 15) - 1)
        (i &&& 15) hslot64 hblt (by omega),
      List.set_set, set_getElem_eq_self v.storage _ slot hs]

/-- Claim C9: `counters()` is the slot count times 16, and `get` extracts
the 4-bit field of the word at slot `index / 16` at bit offset
`(15 - index % 16) * 4`. -/
theorem counting_counters_get (v : CountingVec) (i : Nat)
    (_hi : i < 16 * v.storage.length) :
    v.counters = v.storage.length * 16 ∧
    v.get i = (v.storage[i / 16]?).map fun slot =>
      ((slot >>> ((15 - i % 16) * 4)) &&& 15) := by
  constructor
  · rfl
  · simp [CountingVec.get, Storage.get, shiftRight_four, and15]

theorem bit_decomp (i : Nat) : i = (i >>> 6) * 64 + (i &&& SUFFIX) := by
  rw [shiftRight_six, and_suffix]
  omega

theorem BloomBitVec.get_eq_flag {v : BloomBitVec} {i s : Nat}
    (hs : v.storage[i >>> 6]? = some s) :
    v.get i = some (decide ((s &&& (1 <<< (i &&& SUFFIX))) ≠ 0)) := by
  simp [BloomBitVec.get, hs]

/-- Claim C1 (code bug evidence): `new(1)` and `from_elem(1, _)` record
`nbits = 16`, not `1 × 64` as the spec mandates, because the code
multiplies the slot count by `COUNTER_PER_SLOT = USIZE_LEN >> 2 = 16`
instead of by the word width. -/
theorem new_nbits_eval :
    (BloomBitVec.new 1).nbits = 16 ∧ (BloomBitVec.from_elem 1 true).nbits = 16 ∧
    (BloomBitVec.new 1).nbits ≠ 1 * USIZE_LEN ∧ COUNTER_PER_SLOT = 16 := by
  decide

/-- Claim C2: after `set(i)` on an in-range index, `get(i)` is true and
`get(j)` for any other in-range index `j` is unchanged. -/
theorem bitvec_set_get_frame (v : BloomBitVec) (i j : Nat)
    (hi : i < 64 * v.storage.length) (hj : j < 64 * v.storage.length)
    (hne : j ≠ i) :
    ((v.set i).bind fun t => t.get i) = some true ∧
    ((v.set i).bind fun t => t.get j) = v.get j := by
  have hw : i >>> 6 < v.storage.length := by rw [shiftRight_six]; omega
  have hjw : j >>> 6 < v.storage.length := by rw [shiftRight_six]; omega
  obtain ⟨s, hs⟩ : ∃ s, v.storage[i >>> 6]? = some s :=
    ⟨v.storage[i >>> 6], List.getElem?_eq_getElem hw⟩
  have hset : v.set i =
      some ⟨v.storage.set (i >>> 6) (s ||| (1 <<< (i &&& SUFFIX))), v.nbits⟩ := by
    simp [BloomBitVec.set, hs]
  constructor
  · rw [hset, Option.some_bind]
    have hset2 : (v.storage.set (i >>> 6)
        (s ||| (1 <<< (i &&& SUFFIX))))[i >>> 6]?
        = some (s ||| (1 <<< (i &&& SUFFIX))) :=
      List.getElem?_set_eq_of_lt _ hw
    rw [BloomBitVec.get_eq_flag hset2]
    simp [and_flag_ne_zero, testBit_or_flag_self]
  · rw [hset, Option.some_bind]
    by_cases hww : i >>> 6 = j >>> 6
    · have hset2 : (v.storage.set (i >>> 6)
          (s ||| (1 <<< (i &&& SUFFIX))))[j >>> 6]?
          = some (s ||| (1 <<< (i &&& SUFFIX))) := by
        rw [← hww]
        exact List.getElem?_set_eq_of_lt _ hw
      have hsj : v.storage[j >>> 6]? = some s := hww ▸ hs
      have hbne : (i &&& SUFFIX) ≠ (j &&& SUFFIX) := by
        intro hb
        apply hne
        have di := bit_decomp i
        have dj := bit_decomp j
        omega
      rw [BloomBitVec.get_eq_flag hset2, BloomBitVec.get_eq_flag hsj]
      simp only [Option.some.injEq]
      rw [show ∀ p q : Prop, ∀ hp : Decidable p, ∀ hq : Decidable q,
        (p ↔ q) → decide p = decide q from fun p q hp hq h => by
          cases hp <;> cases hq <;> simp_all]
      rw [and_flag_ne_zero, and_flag_ne_zero, testBit_or_flag_other s _ _ hbne]
    · have hset2 : (v.storage.set (i >>> 6)
          (s ||| (1 <<< (i &&& SUFFIX))))[j >>> 6]? = v.storage[j >>> 6]? :=
        List.getElem?_set_ne hww
      simp [BloomBitVec.get, hset2]

/-- Claim C3: any bit-vector or counting-vector operation applied to an
index beyond the container's addressable capacity fails explicitly
(returns `none`, the embedding of the Rust bounds-check panic) instead of
silently touching another word. -/
theorem oob_explicit_failure (v : BloomBitVec) (c : CountingVec) (i j : Nat)
    (hi : 64 * v.storage.length ≤ i) (hj : 16 * c.storage.length ≤ j) :
    v.set i = none ∧ v.get i = none ∧ c.get j = none ∧
    c.increment j = none ∧ c.decrement j = none := by
  have hw : v.storage.length ≤ i >>> 6 := by rw [shiftRight_six]; omega
  have hjw : c.storage.length ≤ j >>> 4 := by rw [shiftRight_four]; omega
  have h1 : v.storage[i >>> 6]? = none := List.getElem?_eq_none hw
  have h2 : c.storage[j >>> 4]? = none := List.getElem?_eq_none hjw
  refine ⟨?_, ?_, ?_, ?_, ?_⟩ <;>
    simp [BloomBitVec.set, BloomBitVec.get, CountingVec.get, CountingVec.increment,
      CountingVec.decrement, Storage.get, StorageMut.update, h1, h2]

/-- Claim C8: after `clear()` every in-range bit reads false, and, for
every bit vector (the zero-word-count one included), `is_empty()` is true
exactly when the word count is zero, unaffected by bit content before or
after `clear()`. -/
theorem clear_and_is_empty (v : BloomBitVec) (i : Nat) :
    (i < 64 * v.storage.length → v.clear.get i = some false) ∧
    (v.is_empty = true ↔ v.storage.length = 0) ∧
    v.clear.is_empty = v.is_empty := by
  refine ⟨?_, ?_, ?_⟩
  · intro hi
    have hw : i >>> 6 < v.storage.length := by rw [shiftRight_six]; omega
    have hrep : (List.replicate v.storage.length (0 : Nat))[i >>> 6]? = some 0 := by
      simp [List.getElem?_replicate, hw]
    simp [BloomBitVec.clear, BloomBitVec.get, hrep]
  · simp [BloomBitVec.is_empty, List.isEmpty_iff_length_eq_zero]
  · cases h : v.storage with
    | nil => simp [BloomBitVec.clear, BloomBitVec.is_empty, h]
    | cons a l => simp [BloomBitVec.clear, BloomBitVec.is_empty, h, List.replicate]

theorem zipWithKeep_nil_left (f : Nat → Nat → Nat) (bs : List Nat) :
    zipWithKeep f [] bs = [] := by
  cases bs <;> rfl

theorem zipWithKeep_nil_right (f : Nat → Nat → Nat) (as : List Nat) :
    zipWithKeep f as [] = as := by
  cases as <;> rfl

theorem zipWithKeep_cons (f : Nat → Nat → Nat) (a b : Nat) (as bs : List Nat) :
    zipWithKeep f (a :: as) (b :: bs) = f a b :: zipWithKeep f as bs := rfl

theorem zipWithKeep_not64 (f : Nat → Nat → Nat) :
    ∀ as bs : List Nat, as.length = bs.length →
      zipWithKeep (fun m o => not64 (f m o)) as bs = (zipWithKeep f as bs).map not64
  | [], [], _ => rfl
  | [], _ :: _, h => by simp at h
  | _ :: _, [], h => by simp at h
  | a :: as, b :: bs, h => by
    rw [zipWithKeep_cons, zipWithKeep_cons, List.map_cons,
      zipWithKeep_not64 f as bs (by simpa using h)]

theorem zipWithKeep_diff :
    ∀ as bs : List Nat,
      zipWithKeep (fun m o => m &&& not64 o) as bs =
        zipWithKeep (fun m o => m &&& o) as (bs.map not64)
  | [], bs => by rw [zipWithKeep_nil_left, zipWithKeep_nil_left]
  | a :: as, [] => by
    rw [zipWithKeep_nil_right, List.map_nil, zipWithKeep_nil_right]
  | a :: as, b :: bs => by
    rw [List.map_cons, zipWithKeep_cons, zipWithKeep_cons, zipWithKeep_diff as bs]

/-- Claim C6: on equal word counts, `xnor` is the complement of `xor`,
`nand` the complement of `and`, `nor` the complement of `or`, and
`difference(A, B)` is `and(A, complement(B))`. -/
theorem boolean_complement_laws (A B : BloomBitVec)
    (h : A.storage.length = B.storage.length) :
    A.xnor B = specComplement (A.xor B) ∧
    A.nand B = specComplement (A.and B) ∧
    A.nor B = specComplement (A.or B) ∧
    A.difference B = A.and (specComplement B) := by
  refine ⟨?_, ?_, ?_, ?_⟩
  · simp [BloomBitVec.xnor, BloomBitVec.xor, specComplement, zipWithKeep_not64 _ _ _ h]
  · simp [BloomBitVec.nand, BloomBitVec.and, specComplement, zipWithKeep_not64 _ _ _ h]
  · simp [BloomBitVec.nor, BloomBitVec.or, specComplement, zipWithKeep_not64 _ _ _ h]
  · simp [BloomBitVec.difference, BloomBitVec.and, specComplement, zipWithKeep_diff]

theorem zipWithKeep_length (f : Nat → Nat → Nat) :
    ∀ as bs : List Nat, (zipWithKeep f as bs).length = as.length
  | [], bs => by rw [zipWithKeep_nil_left]
  | _ :: _, [] => by rw [zipWithKeep_nil_right]
  | a :: as, b :: bs => by
    rw [zipWithKeep_cons, List.length_cons, List.length_cons,
      zipWithKeep_length f as bs]

theorem zipWithKeep_getElem_lt (f : Nat → Nat → Nat) :
    ∀ (as bs : List Nat) (k x y : Nat), as[k]? = some x → bs[k]? = some y →
      (zipWithKeep f as bs)[k]? = some (f x y)
  | [], _, k, x, y, hx, _ => by simp at hx
  | _ :: _, [], k, x, y, _, hy => by simp at hy
  | a :: as, b :: bs, 0, x, y, hx, hy => by
    simp at hx hy
    simp [zipWithKeep_cons, hx, hy]
  | a :: as, b :: bs, k + 1, x, y, hx, hy => by
    simp at hx hy
    simpa [zipWithKeep_cons] using zipWithKeep_getElem_lt f as bs k x y hx hy

theorem zipWithKeep_getElem_ge (f : Nat → Nat → Nat) :
    ∀ (as bs : List Nat) (k : Nat), bs.length ≤ k →
      (zipWithKeep f as bs)[k]? = as[k]?
  | [], bs, k, _ => by rw [zipWithKeep_nil_left]
  | _ :: _, [], k, _ => by rw [zipWithKeep_nil_right]
  | a :: as, b :: bs, 0, h => by simp at h
  | a :: as, b :: bs, k + 1, h => by
    simpa [zipWithKeep_cons] using zipWithKeep_getElem_ge f as bs k (by simpa using h)

/-- Claim C7: every boolean-algebra operation pairs words positionally up
to the shorter vector's length, and leaves every word of the receiver at a
position beyond the other vector's length unchanged. -/
theorem boolean_truncation (A B : BloomBitVec) (k1 k2 x y : Nat)
    (h1 : A.storage[k1]? = some x) (h2 : B.storage[k1]? = some y)
    (h3 : B.storage.length ≤ k2) :
    ((A.or B).storage[k1]? = some (x ||| y) ∧
      (A.xor B).storage[k1]? = some (x ^^^ y) ∧
      (A.nor B).storage[k1]? = some (not64 (x ||| y)) ∧
      (A.xnor B).storage[k1]? = some (not64 (x ^^^ y)) ∧
      (A.and B).storage[k1]? = some (x &&& y) ∧
      (A.nand B).storage[k1]? = some (not64 (x &&& y)) ∧
      (A.difference B).storage[k1]? = some (x &&& not64 y)) ∧
    ((A.or B).storage[k2]? = A.storage[k2]? ∧
      (A.xor B).storage[k2]? = A.storage[k2]? ∧
      (A.nor B).storage[k2]? = A.storage[k2]? ∧
      (A.xnor B).storage[k2]? = A.storage[k2]? ∧
      (A.and B).storage[k2]? = A.storage[k2]? ∧
      (A.nand B).storage[k2]? = A.storage[k2]? ∧
      (A.difference B).storage[k2]? = A.storage[k2]?) ∧
    ((A.or B).storage.length = A.storage.length ∧
      (A.xor B).storage.length = A.storage.length ∧
      (A.nor B).storage.length = A.storage.length ∧
      (A.xnor B).storage.length = A.storage.length ∧
      (A.and B).storage.length = A.storage.length ∧
      (A.nand B).storage.length = A.storage.length ∧
      (A.difference B).storage.length = A.storage.length) := by
  refine ⟨⟨?_, ?_, ?_, ?_, ?_, ?_, ?_⟩, ⟨?_, ?_, ?_, ?_, ?_, ?_, ?_⟩,
    ⟨?_, ?_, ?_, ?_, ?_, ?_, ?_⟩⟩ <;>
    simp [BloomBitVec.or, BloomBitVec.xor, BloomBitVec.nor, BloomBitVec.xnor,
      BloomBitVec.and, BloomBitVec.nand, BloomBitVec.difference,
      zipWithKeep_getElem_lt _ _ _ _ _ _ h1 h2,
      zipWithKeep_getElem_ge _ _ _ _ h3, zipWithKeep_length]

/-- Witness for claim C2 at a two-word vector, indices 5 and 70. -/
theorem bitvec_set_get_frame_witness :
    (((BloomBitVec.new 2).set 5).bind fun t => t.get 5) = some true ∧
    (((BloomBitVec.new 2).set 5).bind fun t => t.get 70) = (BloomBitVec.new 2).get 70 :=
  bitvec_set_get_frame (BloomBitVec.new 2) 5 70 (by decide) (by decide) (by decide)

/-- Witness for claim C3 at a one-word bit vector, index 64, and a
one-slot counting vector, index 16. -/
theorem oob_explicit_failure_witness :
    (BloomBitVec.new 1).set 64 = none ∧ (BloomBitVec.new 1).get 64 = none ∧
    CountingVec.get (CountingVec.new [0]) 16 = none ∧
    (CountingVec.new [0]).increment 16 = none ∧
    (CountingVec.new [0]).decrement 16 = none :=
  oob_explicit_failure (BloomBitVec.new 1) (CountingVec.new [0]) 64 16
    (by decide) (by decide)

/-- Witness for claim C4 at a one-slot counting vector, index 0. -/
theorem counting_saturation_witness :
    (CountingVec.get (CountingVec.new [0]) 0 = some 15 →
      (CountingVec.new [0]).increment 0 = some (CountingVec.new [0])) ∧
    (CountingVec.get (CountingVec.new [0]) 0 = some 0 →
      (CountingVec.new [0]).decrement 0 = some (CountingVec.new [0])) ∧
    (CountingVec.get (CountingVec.new [0]) 0 = some 0 →
      ∃ t : CountingVec, incIter 16 (CountingVec.new [0]) 0 = some t ∧
        t.get 0 = some 15 ∧ incIter 17 (CountingVec.new [0]) 0 = some t) :=
  counting_saturation (CountingVec.new [0]) 0 (by decide)

/-- Witness for claim C5 at a two-slot counting vector, indices 0 and 1. -/
theorem counting_increment_frame_witness :
    (((CountingVec.new [0, 0]).increment 0).bind fun t => t.get 1) =
      CountingVec.get (CountingVec.new [0, 0]) 1 ∧
    (((CountingVec.new [0, 0]).decrement 0).bind fun t => t.get 1) =
      CountingVec.get (CountingVec.new [0, 0]) 1 :=
  counting_increment_frame (CountingVec.new [0, 0]) 0 1 (by decide) (by decide)
    (by decide)

/-- Witness for claim C6 at concrete two-word vectors. -/
theorem boolean_complement_laws_witness :
    (⟨[3, 9], 128⟩ : BloomBitVec).xnor ⟨[5, 1], 128⟩ =
      specComplement ((⟨[3, 9], 128⟩ : BloomBitVec).xor ⟨[5, 1], 128⟩) ∧
    (⟨[3, 9], 128⟩ : BloomBitVec).nand ⟨[5, 1], 128⟩ =
      specComplement ((⟨[3, 9], 128⟩ : BloomBitVec).and ⟨[5, 1], 128⟩) ∧
    (⟨[3, 9], 128⟩ : BloomBitVec).nor ⟨[5, 1], 128⟩ =
      specComplement ((⟨[3, 9], 128⟩ : BloomBitVec).or ⟨[5, 1], 128⟩) ∧
    (⟨[3, 9], 128⟩ : BloomBitVec).difference ⟨[5, 1], 128⟩ =
      (⟨[3, 9], 128⟩ : BloomBitVec).and (specComplement ⟨[5, 1], 128⟩) :=
  boolean_complement_laws ⟨[3, 9], 128⟩ ⟨[5, 1], 128⟩ (by decide)

/-- Witness for claim C7 at a two-word receiver and one-word argument,
position 0 combined and position 1 untouched. -/
theorem boolean_truncation_witness :
    (((⟨[1, 2], 128⟩ : BloomBitVec).or ⟨[3], 64⟩).storage[0]? = some (1 ||| 3) ∧
      ((⟨[1, 2], 128⟩ : BloomBitVec).xor ⟨[3], 64⟩).storage[0]? = some (1 ^^^ 3) ∧
      ((⟨[1, 2], 128⟩ : BloomBitVec).nor ⟨[3], 64⟩).storage[0]? = some (not64 (1 ||| 3)) ∧
      ((⟨[1, 2], 128⟩ : BloomBitVec).xnor ⟨[3], 64⟩).storage[0]? = some (not64 (1 ^^^ 3)) ∧
      ((⟨[1, 2], 128⟩ : BloomBitVec).and ⟨[3], 64⟩).storage[0]? = some (1 &&& 3) ∧
      ((⟨[1, 2], 128⟩ : BloomBitVec).nand ⟨[3], 64⟩).storage[0]? = some (not64 (1 &&& 3)) ∧
      ((⟨[1, 2], 128⟩ : BloomBitVec).difference ⟨[3], 64⟩).storage[0]? = some (1 &&& not64 3)) ∧
    (((⟨[1, 2], 128⟩ : BloomBitVec).or ⟨[3], 64⟩).storage[1]? =
        (⟨[1, 2], 128⟩ : BloomBitVec).storage[1]? ∧
      ((⟨[1, 2], 128⟩ : BloomBitVec).xor ⟨[3], 64⟩).storage[1]? =
        (⟨[1, 2], 128⟩ : BloomBitVec).storage[1]? ∧
      ((⟨[1, 2], 128⟩ : BloomBitVec).nor ⟨[3], 64⟩).storage[1]? =
        (⟨[1, 2], 128⟩ : BloomBitVec).storage[1]? ∧
      ((⟨[1, 2], 128⟩ : BloomBitVec).xnor ⟨[3], 64⟩).storage[1]? =
        (⟨[1, 2], 128⟩ : BloomBitVec).storage[1]? ∧
      ((⟨[1, 2], 128⟩ : BloomBitVec).and ⟨[3], 64⟩).storage[1]? =
        (⟨[1, 2], 128⟩ : BloomBitVec).storage[1]? ∧
      ((⟨[1, 2], 128⟩ : BloomBitVec).nand ⟨[3], 64⟩).storage[1]? =
        (⟨[1, 2], 128⟩ : BloomBitVec).storage[1]? ∧
      ((⟨[1, 2], 128⟩ : BloomBitVec).difference ⟨[3], 64⟩).storage[1]? =
        (⟨[1, 2], 128⟩ : BloomBitVec).storage[1]?) ∧
    (((⟨[1, 2], 128⟩ : BloomBitVec).or ⟨[3], 64⟩).storage.length =
        (⟨[1, 2], 128⟩ : BloomBitVec).storage.length ∧
      ((⟨[1, 2], 128⟩ : BloomBitVec).xor ⟨[3], 64⟩).storage.length =
        (⟨[1, 2], 128⟩ : BloomBitVec).storage.length ∧
      ((⟨[1, 2], 128⟩ : BloomBitVec).nor ⟨[3], 64⟩).storage.length =
        (⟨[1, 2], 128⟩ : BloomBitVec).storage.length ∧
      ((⟨[1, 2], 128⟩ : BloomBitVec).xnor ⟨[3], 64⟩).storage.length =
        (⟨[1, 2], 128⟩ : BloomBitVec).storage.length ∧
      ((⟨[1, 2], 128⟩ : BloomBitVec).and ⟨[3], 64⟩).storage.length =
        (⟨[1, 2], 128⟩ : BloomBitVec).storage.length ∧
      ((⟨[1, 2], 128⟩ : BloomBitVec).nand ⟨[3], 64⟩).storage.length =
        (⟨[1, 2], 128⟩ : BloomBitVec).storage.length ∧
      ((⟨[1, 2], 128⟩ : BloomBitVec).difference ⟨[3], 64⟩).storage.length =
        (⟨[1, 2], 128⟩ : BloomBitVec).storage.length) :=
  boolean_truncation ⟨[1, 2], 128⟩ ⟨[3], 64⟩ 0 1 1 3 (by decide) (by decide)
    (by decide)

/-- Witness for claim C8, both at the zero-word-count vector, where
`is_empty` is true, and at a one-word all-ones vector, index 3. -/
theorem clear_and_is_empty_witness :
    ((0 < 64 * (BloomBitVec.new 0).storage.length →
        (BloomBitVec.new 0).clear.get 0 = some false) ∧
      ((BloomBitVec.new 0).is_empty = true ↔
        (BloomBitVec.new 0).storage.length = 0) ∧
      (BloomBitVec.new 0).clear.is_empty = (BloomBitVec.new 0).is_empty) ∧
    ((3 < 64 * (BloomBitVec.from_elem 1 true).storage.length →
        (BloomBitVec.from_elem 1 true).clear.get 3 = some false) ∧
      ((BloomBitVec.from_elem 1 true).is_empty = true ↔
        (BloomBitVec.from_elem 1 true).storage.length = 0) ∧
      (BloomBitVec.from_elem 1 true).clear.is_empty =
        (BloomBitVec.from_elem 1 true).is_empty) :=
  ⟨clear_and_is_empty (BloomBitVec.new 0) 0,
    clear_and_is_empty (BloomBitVec.from_elem 1 true) 3⟩

/-- Witness for claim C9 at a two-slot counting vector, index 17. -/
theorem counting_counters_get_witness :
    (CountingVec.new [0, 0]).counters = (CountingVec.new [0, 0]).storage.length * 16 ∧
    CountingVec.get (CountingVec.new [0, 0]) 17 =
      ((CountingVec.new [0, 0]).storage[17 / 16]?).map fun slot =>
        ((slot >>> ((15 - 17 % 16) * 4)) &&& 15) :=
  counting_counters_get (CountingVec.new [0, 0]) 17 (by decide)

/-- Witness for claim C10 at a one-slot counting vector whose counter 0
holds 1. -/
theorem counting_inc_dec_roundtrip_witness :
    (1 < 15 → (((CountingVec.new [2 ^ 60]).increment 0).bind fun t =>
      t.decrement 0) = some (CountingVec.new [2 ^ 60])) ∧
    (0 < 1 → (((CountingVec.new [2 ^ 60]).decrement 0).bind fun t =>
      t.increment 0) = some (CountingVec.new [2 ^ 60])) :=
  counting_inc_dec_roundtrip (CountingVec.new [2 ^ 60]) 0 1 (by decide)
    (by decide) (by decide)
